import Mathlib

/-!
Verification development for the Marketing Scraper API (src/server.py).

The Python source is shallowly embedded: strings are lists of characters
(`Str`), the regular-expression scans used by the extraction functions are
embedded as explicit backtracking matchers over character classes, parsed
HTML documents (BeautifulSoup objects) are embedded as a tree type `Html`,
and the MongoDB-backed session endpoints are embedded as pure functions on
a list of session documents.  Timestamps (`created_at`, `scraped_at`, ...)
and generated UUIDs are irrelevant to the verified properties: timestamps
are omitted from the embedded records and UUIDs are passed as explicit
arguments.

Python `set` accumulation (emails, phones, companies, video ids) is
iterated in a hash order that is fixed for identical input within one
process; it is embedded as first-occurrence order-preserving
deduplication (`dedupFirst`), which has the same membership and
cardinality and is likewise a deterministic function of the input.
-/

namespace Scraper

abbrev Str := List Char

def str (s : String) : Str := s.data

/-- Case conversion used by `e.lower()` in the email filter (ASCII). -/
def toLowerStr (s : Str) : Str := s.map Char.toLower

/-- Python `needle in hay` substring test on strings. -/
def isSubstr (needle : Str) : Str → Bool
  | [] => needle.isEmpty
  | c :: rest => needle.isPrefixOf (c :: rest) || isSubstr needle rest

/-- Python `str.strip()`: drop whitespace at both ends. -/
def trimStr (s : Str) : Str :=
  ((s.dropWhile Char.isWhitespace).reverse.dropWhile Char.isWhitespace).reverse

/-- First-occurrence-preserving deduplication with an accumulator of already
seen values; embeds the accumulation of a Python `set`. -/
def dedupGo [DecidableEq α] (seen : List α) : List α → List α
  | [] => []
  | a :: as => if a ∈ seen then dedupGo seen as else a :: dedupGo (a :: seen) as

def dedupFirst [DecidableEq α] (l : List α) : List α := dedupGo [] l

/-- Deduplication by a key function, keeping the first element for each key;
embeds the seen-set loop of `extract_social_links`. -/
def dedupByGo [DecidableEq β] (key : α → β) (seen : List β) : List α → List α
  | [] => []
  | a :: as =>
    if key a ∈ seen then dedupByGo key seen as
    else a :: dedupByGo key (key a :: seen) as

def dedupBy [DecidableEq β] (key : α → β) (l : List α) : List α := dedupByGo key [] l

/-! ### A small regular-expression engine

Every pattern used by `extract_emails` and `extract_phones` is a plain
sequence of character-class repetitions.  `matchItems` implements Python's
greedy backtracking for such sequences: each repetition tries the largest
feasible count first and backtracks downwards. -/

structure ReItem where
  pred : Char → Bool
  lo : Nat
  hi : Option Nat

/-- Try counts from `k` down to `lo`, returning the first success. -/
def tryCounts (f : Nat → Option Nat) (lo : Nat) : Nat → Option Nat
  | 0 => if lo = 0 then f 0 else none
  | k + 1 =>
    if k + 1 < lo then none
    else
      match f (k + 1) with
      | some n => some n
      | none => tryCounts f lo k

/-- Match a sequence of character-class repetitions at the head of `s`,
returning the number of characters consumed. -/
def matchItems : List ReItem → Str → Option Nat
  | [], _ => some 0
  | it :: its, s =>
    let run := (s.takeWhile it.pred).length
    let top := match it.hi with | none => run | some h => min h run
    tryCounts (fun k => (matchItems its (s.drop k)).map (fun n => k + n)) it.lo top

/-- Fuel-driven scan embedding `re.findall` for a pattern given as a list of
alternatives: at each position the first matching alternative yields a
match, scanning resumes after it; otherwise the scan advances one
character.  Fuel `s.length` suffices because every step consumes at least
one character. -/
def reScan (alts : List (List ReItem)) : Nat → Str → List Str
  | 0, _ => []
  | _ + 1, [] => []
  | fuel + 1, c :: rest =>
    match (alts.findSome? (fun its => matchItems its (c :: rest))) with
    | some n =>
      if n = 0 then reScan alts fuel rest
      else ((c :: rest).take n) :: reScan alts fuel ((c :: rest).drop n)
    | none => reScan alts fuel rest

def reFindall (alts : List (List ReItem)) (s : Str) : List Str := reScan alts s.length s

/-! ### extract_emails (src/server.py lines 76-83) -/

/-- Character class `[a-zA-Z0-9._%+-]` of the email local part. -/
def localChar (c : Char) : Bool :=
  c.isAlpha || c.isDigit || c == '.' || c == '_' || c == '%' || c == '+' || c == '-'

/-- Character class `[a-zA-Z0-9.-]` of the email domain part. -/
def domainChar (c : Char) : Bool := c.isAlpha || c.isDigit || c == '.' || c == '-'

/-- The pattern `[a-zA-Z0-9._%+-]+@[a-zA-Z0-9.-]+\.[a-zA-Z]{2,}`. -/
def emailItems : List ReItem :=
  [⟨localChar, 1, none⟩, ⟨(· == '@'), 1, some 1⟩, ⟨domainChar, 1, none⟩,
   ⟨(· == '.'), 1, some 1⟩, ⟨Char.isAlpha, 2, none⟩]

def findallEmail (s : Str) : List Str := reFindall [emailItems] s

/-- The false-positive denylist checked against `e.lower()`. -/
def denylist : List Str :=
  [str "example.com", str "test.com", str "email.com", str ".png", str ".jpg", str ".gif"]

/-- Embeds `extract_emails`: matches over visible text and raw HTML are
unioned into a set, filtered against the denylist, and capped at 50. -/
def extract_emails (text html : Str) : List Str :=
  let emails := dedupFirst (findallEmail text ++ findallEmail html)
  let filtered := emails.filter (fun e => !(denylist.any (fun x => isSubstr x (toLowerStr e))))
  filtered.take 50

/-! ### extract_phones (src/server.py lines 85-96) -/

/-- Class `[-.\s]` separating phone number groups. -/
def phoneSep (c : Char) : Bool := c == '-' || c == '.' || c.isWhitespace

/-- Pattern `\+?1?\s*\(?[0-9]{3}\)?[-.\s]?[0-9]{3}[-.\s]?[0-9]{4}`. -/
def phoneItems1 : List ReItem :=
  [⟨(· == '+'), 0, some 1⟩, ⟨(· == '1'), 0, some 1⟩, ⟨Char.isWhitespace, 0, none⟩,
   ⟨(· == '('), 0, some 1⟩, ⟨Char.isDigit, 3, some 3⟩, ⟨(· == ')'), 0, some 1⟩,
   ⟨phoneSep, 0, some 1⟩, ⟨Char.isDigit, 3, some 3⟩, ⟨phoneSep, 0, some 1⟩,
   ⟨Char.isDigit, 4, some 4⟩]

/-- Pattern `\+?[0-9]{1,3}[-.\s]?[0-9]{3,4}[-.\s]?[0-9]{3,4}[-.\s]?[0-9]{3,4}`. -/
def phoneItems2 : List ReItem :=
  [⟨(· == '+'), 0, some 1⟩, ⟨Char.isDigit, 1, some 3⟩, ⟨phoneSep, 0, some 1⟩,
   ⟨Char.isDigit, 3, some 4⟩, ⟨phoneSep, 0, some 1⟩, ⟨Char.isDigit, 3, some 4⟩,
   ⟨phoneSep, 0, some 1⟩, ⟨Char.isDigit, 3, some 4⟩]

/-- Pattern `\([0-9]{3}\)\s*[0-9]{3}[-.\s]?[0-9]{4}`. -/
def phoneItems3 : List ReItem :=
  [⟨(· == '('), 1, some 1⟩, ⟨Char.isDigit, 3, some 3⟩, ⟨(· == ')'), 1, some 1⟩,
   ⟨Char.isWhitespace, 0, none⟩, ⟨Char.isDigit, 3, some 3⟩, ⟨phoneSep, 0, some 1⟩,
   ⟨Char.isDigit, 4, some 4⟩]

/-- Embeds `extract_phones`: each of the three patterns is applied to the
visible text independently, matches are unioned into a set, capped at 30. -/
def extract_phones (text : Str) : List Str :=
  (dedupFirst (reFindall [phoneItems1] text ++ reFindall [phoneItems2] text ++
    reFindall [phoneItems3] text)).take 30

/-! ### Video id scans (src/server.py lines 184-213) -/

/-- Class `[a-zA-Z0-9_-]` of a YouTube video id. -/
def idChar (c : Char) : Bool := c.isAlpha || c.isDigit || c == '_' || c == '-'

/-- Fuel-driven scan embedding `re.findall` for a pattern of the shape
`(?:lit1|lit2|...)(<class>{n})` (when `need = some n`) or
`lit(<class>+)` (when `need = none`), returning the captured groups. -/
def scanCapture (lits : List Str) (cls : Char → Bool) (need : Option Nat) :
    Nat → Str → List Str
  | 0, _ => []
  | _ + 1, [] => []
  | fuel + 1, c :: rest =>
    let s := c :: rest
    match (lits.findSome? (fun p =>
      if p.isPrefixOf s then
        let tail := s.drop p.length
        let run := tail.takeWhile cls
        match need with
        | some n => if n ≤ run.length then some (run.take n, tail.drop n) else none
        | none => if 1 ≤ run.length then some (run, tail.drop run.length) else none
      else none)) with
    | some (cap, rem) => cap :: scanCapture lits cls need fuel rem
    | none => scanCapture lits cls need fuel rest

/-- Pattern `(?:youtube\.com/watch\?v=|youtu\.be/|youtube\.com/embed/)([a-zA-Z0-9_-]{11})`. -/
def findallYouTube (html : Str) : List Str :=
  scanCapture [str "youtube.com/watch?v=", str "youtu.be/", str "youtube.com/embed/"]
    idChar (some 11) html.length html

/-- Pattern `vimeo\.com/(\d+)`. -/
def findallVimeo1 (html : Str) : List Str :=
  scanCapture [str "vimeo.com/"] Char.isDigit none html.length html

/-- Pattern `player\.vimeo\.com/video/(\d+)`. -/
def findallVimeo2 (html : Str) : List Str :=
  scanCapture [str "player.vimeo.com/video/"] Char.isDigit none html.length html

/-! ### Parsed documents

An `Html` value embeds a BeautifulSoup parse tree: the soup object itself
is the synthetic `[document]` root element whose children are the parsed
top-level nodes.  The parser itself (`BeautifulSoup(html, "html.parser")`)
is an external library; the endpoints below receive the raw HTML string
and its parse tree as separate arguments, exactly as the source functions
receive `html` and `soup`. -/

inductive Html where
  | textNode (s : Str)
  | elem (tag : Str) (attrs : List (Str × Str)) (children : List Html)

def childrenOf : Html → List Html
  | .textNode _ => []
  | .elem _ _ cs => cs

/-- Attribute lookup on an attribute list (`el.get(key)`). -/
def getAttr (attrs : List (Str × Str)) (k : Str) : Option Str :=
  (attrs.find? (fun a => a.1 == k)).map (fun a => a.2)

/-- Attribute lookup on an element (`el.get(key)`); text nodes have none. -/
def attrOf (h : Html) (k : Str) : Option Str :=
  match h with
  | .elem _ a _ => getAttr a k
  | .textNode _ => none

mutual
/-- All elements of a subtree (the node itself included) whose tag and
attributes satisfy `p`, in document (preorder) order. -/
def findElemsN (p : Str → List (Str × Str) → Bool) : Html → List Html
  | .textNode _ => []
  | .elem t a cs => (if p t a then [Html.elem t a cs] else []) ++ findElemsL p cs

def findElemsL (p : Str → List (Str × Str) → Bool) : List Html → List Html
  | [] => []
  | c :: cs => findElemsN p c ++ findElemsL p cs
end

/-- Embeds `el.find_all(...)`: matching descendants of `h` in document
order (the node itself excluded, as in BeautifulSoup). -/
def find_all (p : Str → List (Str × Str) → Bool) (h : Html) : List Html :=
  findElemsL p (childrenOf h)

mutual
/-- The stripped, non-empty text fragments of a subtree, in document
order; these are the strings `get_text(strip=True)` joins. -/
def textFragsN : Html → List Str
  | .textNode s => let t := trimStr s; if t.isEmpty then [] else [t]
  | .elem _ _ cs => textFragsL cs

def textFragsL : List Html → List Str
  | [] => []
  | c :: cs => textFragsN c ++ textFragsL cs
end

/-- Embeds `el.get_text(strip=True)` (separator defaults to ""). -/
def getTextStrip (h : Html) : Str := (textFragsN h).flatten

/-- Embeds `soup.get_text(separator=" ", strip=True)` computed at line 388. -/
def docText (soup : Html) : Str := List.intercalate (str " ") (textFragsN soup)

/-- Embeds `el.string`: the contents of an element holding exactly one
string child, `None` otherwise. -/
def elemString : Html → Option Str
  | .elem _ _ [.textNode s] => some s
  | _ => none

/-- Selector `tag`. -/
def selTag (name : Str) (h : Html) : List Html := find_all (fun t _ => t == name) h

/-- Selector `[class*="sub"]`: elements whose class attribute contains
`sub` as a substring. -/
def selClassContains (sub : Str) (h : Html) : List Html :=
  find_all (fun _ a =>
    match getAttr a (str "class") with
    | some v => isSubstr sub v
    | none => false) h

/-- Selector `[key="value"]`. -/
def selAttrEq (k v : Str) (h : Html) : List Html :=
  find_all (fun _ a => getAttr a k == some v) h

/-- Selector `[key]` (attribute present). -/
def selHasAttr (k : Str) (h : Html) : List Html :=
  find_all (fun _ a => (getAttr a k).isSome) h

/-- Embeds `soup.find_all("a", href=True)`. -/
def anchorsWithHref (h : Html) : List Html :=
  find_all (fun t a => t == str "a" && (getAttr a (str "href")).isSome) h

/-! ### URL helpers

`urljoin` and `urlparse(...).netloc` come from `urllib.parse`, an external
library collaborator.  They are modelled (simplified RFC 3986 resolution):
no claim under verification depends on their internals. -/

/-- Drop everything up to and including the first occurrence of `pat`. -/
def dropThrough (pat : Str) : Str → Option Str
  | [] => none
  | c :: rest =>
    if pat.isPrefixOf (c :: rest) then some ((c :: rest).drop pat.length)
    else dropThrough pat rest

/-- Model of `urllib.parse.urlparse(u).netloc`. -/
def netloc (u : Str) : Str :=
  let t :=
    match dropThrough (str "://") u with
    | some r => r
    | none => if (str "//").isPrefixOf u then u.drop 2 else []
  t.takeWhile (fun c => !(c == '/' || c == '?' || c == '#'))

/-- Model of the scheme-plus-authority part of an absolute URL. -/
def schemeRoot (b : Str) : Str :=
  match dropThrough (str "://") b with
  | some r => b.take (b.length - r.length) ++ netloc b
  | none => netloc b

/-- Model of the base URL up to and including the last slash of its path. -/
def baseDir (b : Str) : Str :=
  match dropThrough (str "://") b with
  | some r =>
    if r.any (fun c => c == '/') then (b.reverse.dropWhile (fun c => !(c == '/'))).reverse
    else b ++ [ '/' ]
  | none =>
    if b.any (fun c => c == '/') then (b.reverse.dropWhile (fun c => !(c == '/'))).reverse
    else b ++ [ '/' ]

/-- Model of `urllib.parse.urljoin` (library collaborator; simplified
RFC 3986 relative resolution). -/
def urljoin (base rel : Str) : Str :=
  if rel.isEmpty then base
  else if (dropThrough (str "://") rel).isSome then rel
  else if (str "//").isPrefixOf rel then rel
  else if (str "/").isPrefixOf rel then schemeRoot base ++ rel
  else baseDir base ++ rel

/-! ### Extraction records and options -/

structure ScrapeOptions where
  extract_emails : Bool := true
  extract_phones : Bool := true
  extract_names : Bool := true
  extract_companies : Bool := true
  extract_social_links : Bool := true
  extract_html : Bool := true
  extract_css : Bool := true
  extract_images : Bool := true
  extract_links : Bool := true
  extract_youtube : Bool := true
  extract_vimeo : Bool := true
  extract_all_videos : Bool := true
deriving DecidableEq, Repr

structure NameRef where
  name : Str
  source : Str
deriving DecidableEq, Repr

structure SocialLink where
  platform : Str
  url : Str
deriving DecidableEq, Repr

/-- One video record; `videoType` embeds the `"type"` dictionary key. -/
structure VideoRef where
  platform : Str
  video_id : Option Str := none
  url : Str
  embed_url : Option Str := none
  videoType : Option Str := none
deriving DecidableEq, Repr

structure ImageRef where
  url : Str
  alt : Str
  width : Option Str := none
  height : Option Str := none
  imageType : Option Str := none
deriving DecidableEq, Repr

structure CssData where
  inline_styles : List Str
  external_stylesheets : List Str
  total_css : Str
deriving DecidableEq, Repr

structure LinkRef where
  url : Str
  text : Str
  is_external : Bool
deriving DecidableEq, Repr

/-! ### extract_names (lines 98-119) -/

/-- The fixed priority list of selectors with their source labels. -/
def name_selectors : List (Str × (Html → List Html)) :=
  [(str "h1", selTag (str "h1")), (str "h2", selTag (str "h2")), (str "h3", selTag (str "h3")),
   (str "[class*=\x22name\x22]", selClassContains (str "name")),
   (str "[class*=\x22author\x22]", selClassContains (str "author")),
   (str "[class*=\x22contact\x22]", selClassContains (str "contact")),
   (str "[class*=\x22team\x22]", selClassContains (str "team")),
   (str "[class*=\x22staff\x22]", selClassContains (str "staff")),
   (str "[class*=\x22person\x22]", selClassContains (str "person")),
   (str "[itemprop=\x22name\x22]", selAttrEq (str "itemprop") (str "name")),
   (str "[data-name]", selHasAttr (str "data-name"))]

/-- Embeds `extract_names`. -/
def extract_names (soup : Html) : List NameRef :=
  ((name_selectors.flatMap (fun sel =>
    ((sel.2 soup).take 20).filterMap (fun el =>
      let t := getTextStrip el
      if 3 < t.length && t.length < 50 && 1 ≤ t.count ' ' && t.count ' ' ≤ 3 &&
          t.all (fun c => !c.isDigit) then
        some { name := t, source := sel.1 }
      else none)))).take 20

/-! ### extract_companies (lines 121-143) -/

def company_selectors : List (Html → List Html) :=
  [selClassContains (str "company"), selClassContains (str "business"),
   selClassContains (str "organization"), selAttrEq (str "itemprop") (str "organization"),
   selClassContains (str "brand")]

/-- Legal suffixes of the corporate-name pattern, in alternation order. -/
def corpSuffixes : List Str :=
  [str "LLC", str "Inc", str "Corp", str "Ltd", str "Company", str "Co.", str "Limited"]

/-- Class `[A-Za-z\s&]`. -/
def corpNameChar (c : Char) : Bool := c.isAlpha || c.isWhitespace || c == '&'

/-- Match `([A-Z][A-Za-z\s&]+(?:LLC|Inc|Corp|Ltd|Company|Co\.|Limited)\.?)`
at the head of `s`, returning the consumed length; the inner `+` is greedy
with backtracking (outer loop), alternatives are tried in order (inner). -/
def corpAt (s : Str) : Option Nat :=
  match s with
  | [] => none
  | c :: rest =>
    if c.isUpper then
      let run := (rest.takeWhile corpNameChar).length
      tryCounts (fun k =>
        corpSuffixes.findSome? (fun suf =>
          let t := rest.drop k
          if suf.isPrefixOf t then
            let t2 := t.drop suf.length
            some (1 + k + suf.length +
              (match t2 with
               | d :: _ => if d == '.' then 1 else 0
               | [] => 0))
          else none)) 1 run
    else none

/-- Fuel-driven `re.findall` for the corporate-name pattern. -/
def corpScan : Nat → Str → List Str
  | 0, _ => []
  | _ + 1, [] => []
  | fuel + 1, c :: rest =>
    match corpAt (c :: rest) with
    | some n =>
      if n = 0 then corpScan fuel rest
      else ((c :: rest).take n) :: corpScan fuel ((c :: rest).drop n)
    | none => corpScan fuel rest

def findallCorp (text : Str) : List Str := corpScan text.length text

/-- Embeds `extract_companies`: selector hits (10 per selector, length
filtered) accumulate into a set, the first 10 regex matches are unioned
in, and the result is capped at 15. -/
def extract_companies (soup : Html) (text : Str) : List Str :=
  let selNames := company_selectors.flatMap (fun sel =>
    ((sel soup).take 10).filterMap (fun el =>
      let n := getTextStrip el
      if 2 < n.length && n.length < 100 then some n else none))
  (dedupFirst (selNames ++ (findallCorp text).take 10)).take 15

/-! ### extract_social_links (lines 145-178) -/

/-- The domain-to-platform table, in source (insertion) order. -/
def social_platforms : List (Str × Str) :=
  [(str "facebook.com", str "Facebook"), (str "twitter.com", str "Twitter"),
   (str "x.com", str "Twitter/X"), (str "linkedin.com", str "LinkedIn"),
   (str "instagram.com", str "Instagram"), (str "youtube.com", str "YouTube"),
   (str "tiktok.com", str "TikTok"), (str "pinterest.com", str "Pinterest"),
   (str "github.com", str "GitHub")]

/-- Embeds `extract_social_links`: first matching domain wins per anchor,
duplicates removed by url keeping first-seen order, capped at 20. -/
def extract_social_links (soup : Html) (_base_url : Str) : List SocialLink :=
  let raw := (anchorsWithHref soup).filterMap (fun a =>
    let href := (attrOf a (str "href")).getD []
    social_platforms.findSome? (fun dp =>
      if isSubstr dp.1 href then some ({ platform := dp.2, url := href } : SocialLink)
      else none))
  (dedupBy SocialLink.url raw).take 20

/-! ### extract_videos (lines 180-244) -/

def mkYouTube (i : Str) : VideoRef :=
  { platform := str "YouTube", video_id := some i,
    url := str "https://www.youtube.com/watch?v=" ++ i,
    embed_url := some (str "https://www.youtube.com/embed/" ++ i) }

def mkVimeo (i : Str) : VideoRef :=
  { platform := str "Vimeo", video_id := some i,
    url := str "https://vimeo.com/" ++ i,
    embed_url := some (str "https://player.vimeo.com/video/" ++ i) }

/-- Entries from `<video>` tags and their nested `<source>` children. -/
def directVideos (soup : Html) : List VideoRef :=
  (selTag (str "video") soup).flatMap (fun v =>
    (match attrOf v (str "src") with
     | some src =>
       if src.isEmpty then []
       else [{ platform := str "Direct", url := src, videoType := some (str "video") }]
     | none => []) ++
    (selTag (str "source") v).filterMap (fun so =>
      (attrOf so (str "src")).bind (fun src =>
        if src.isEmpty then none
        else some { platform := str "Direct", url := src,
                    videoType := some ((attrOf so (str "type")).getD (str "video")) })))

/-- Entries from `<iframe>` tags whose src mentions video, embed or player. -/
def embeddedVideos (soup : Html) : List VideoRef :=
  (selTag (str "iframe") soup).filterMap (fun f =>
    let src := (attrOf f (str "src")).getD []
    if [str "video", str "embed", str "player"].any (fun x => isSubstr x src) then
      some { platform := str "Embedded", url := src, videoType := some (str "iframe") }
    else none)

/-- The video list accumulated by `extract_videos` before the final cap. -/
def videosNoCap (options : ScrapeOptions) (soup : Html) (html : Str) : List VideoRef :=
  (if options.extract_youtube then (dedupFirst (findallYouTube html)).map mkYouTube else []) ++
  (if options.extract_vimeo then
    (dedupFirst (findallVimeo1 html)).map mkVimeo ++
    (dedupFirst (findallVimeo2 html)).map mkVimeo
  else []) ++
  (if options.extract_all_videos then directVideos soup ++ embeddedVideos soup else [])

/-- Embeds `extract_videos` (`return videos[:30]`). -/
def extract_videos (options : ScrapeOptions) (soup : Html) (html : Str) : List VideoRef :=
  (videosNoCap options soup html).take 30

/-! ### extract_images (lines 246-272) -/

/-- Class `[^"\')\s]` of a CSS url body. -/
def cssBodyChar (c : Char) : Bool :=
  !(c == '"' || c == Char.ofNat 39 || c == ')' || c.isWhitespace)

def quoteChar (c : Char) : Bool := c == '"' || c == Char.ofNat 39

/-- Match `url\(["\x27]?([^"\x27)\s]+)["\x27]?\)` at the head of `s`,
returning the captured body and the consumed length. -/
def cssUrlAt (s : Str) : Option (Str × Nat) :=
  if (str "url(").isPrefixOf s then
    let t := s.drop 4
    let q1 := match t with | c :: _ => if quoteChar c then 1 else 0 | [] => 0
    let t1 := t.drop q1
    let body := t1.takeWhile cssBodyChar
    if body.isEmpty then none
    else
      match t1.drop body.length with
      | c :: r =>
        if quoteChar c then
          match r with
          | d :: _ => if d == ')' then some (body, 4 + q1 + body.length + 2) else none
          | [] => none
        else if c == ')' then some (body, 4 + q1 + body.length + 1)
        else none
      | [] => none
  else none

/-- Fuel-driven `re.findall` for CSS `url(...)` references. -/
def cssUrlScan : Nat → Str → List Str
  | 0, _ => []
  | _ + 1, [] => []
  | fuel + 1, c :: rest =>
    match cssUrlAt (c :: rest) with
    | some (cap, n) =>
      if n = 0 then cssUrlScan fuel rest
      else cap :: cssUrlScan fuel ((c :: rest).drop n)
    | none => cssUrlScan fuel rest

def findallCssUrl (style : Str) : List Str := cssUrlScan style.length style

/-- Embeds `extract_images`: `<img>` src (or data-src) entries, then
background images from inline style attributes, capped at 100. -/
def extract_images (soup : Html) (base_url : Str) : List ImageRef :=
  let imgEntries := (selTag (str "img") soup).filterMap (fun img =>
    let s1 := (attrOf img (str "src")).getD []
    let src := if s1.isEmpty then (attrOf img (str "data-src")).getD [] else s1
    if src.isEmpty then none
    else some { url := urljoin base_url src, alt := (attrOf img (str "alt")).getD [],
                width := some ((attrOf img (str "width")).getD []),
                height := some ((attrOf img (str "height")).getD []) })
  let bgEntries := (selHasAttr (str "style") soup).flatMap (fun el =>
    let style := (attrOf el (str "style")).getD []
    (findallCssUrl style).map (fun u =>
      ({ url := urljoin base_url u, alt := str "background-image",
         imageType := some (str "background") } : ImageRef)))
  (imgEntries ++ bgEntries).take 100

/-! ### extract_css (lines 274-296) -/

/-- Embeds `extract_css`. -/
def extract_css (soup : Html) (base_url : Str) : CssData :=
  let inline := (selTag (str "style") soup).filterMap elemString
  let external := (selTag (str "link") soup).filterMap (fun l =>
    if attrOf l (str "rel") == some (str "stylesheet") then
      (attrOf l (str "href")).bind (fun h =>
        if h.isEmpty then none else some (urljoin base_url h))
    else none)
  { inline_styles := inline, external_stylesheets := external,
    total_css := List.intercalate (str "\n\n") inline }

/-! ### extract_links (lines 298-310) -/

/-- Embeds `extract_links`. -/
def extract_links (soup : Html) (base_url : Str) : List LinkRef :=
  ((anchorsWithHref soup).filterMap (fun a =>
    let href := (attrOf a (str "href")).getD []
    if href.isEmpty || (str "#").isPrefixOf href || (str "javascript:").isPrefixOf href then
      none
    else
      let absolute := urljoin base_url href
      some { url := absolute, text := (getTextStrip a).take 100,
             is_external := !(netloc absolute == netloc base_url) })).take 200

/-! ### Result assembly of /api/scrape (lines 371-444)

The source accumulates each section in a dict, adding one key per
requested category unconditionally (an empty extraction result still adds
its key), then stores the dict in the result iff it is non-empty
(`if leads:`, `if site_data:`); a dict built that way is non-empty exactly
when at least one of its category flags is set, which is how the `if`
conditions below are phrased.  `scraped_at` and the stored `scrape_id` are
omitted (timestamp/UUID), and the fetch step is external: `html` is the
fetched body and `soup` its parse tree. -/

structure LeadBundle where
  emails : Option (List Str) := none
  phones : Option (List Str) := none
  names : Option (List NameRef) := none
  companies : Option (List Str) := none
  social_links : Option (List SocialLink) := none
deriving DecidableEq, Repr

structure SiteBundle where
  html : Option Str := none
  text : Option Str := none
  css : Option CssData := none
  images : Option (List ImageRef) := none
  links : Option (List LinkRef) := none
deriving DecidableEq, Repr

structure ExtractionResult where
  url : Str
  title : Option Str
  leads : Option LeadBundle := none
  site : Option SiteBundle := none
  videos : Option (List VideoRef) := none
deriving DecidableEq, Repr

/-- Embeds `soup.title.string if soup.title else url` (line 393). -/
def titleOf (soup : Html) (url : Str) : Option Str :=
  match selTag (str "title") soup with
  | t :: _ => elemString t
  | [] => some url

/-- Embeds the pure result construction of the `scrape_url` endpoint. -/
def scrape_url_result (url : Str) (options : ScrapeOptions) (html : Str) (soup : Html) :
    ExtractionResult :=
  let text := docText soup
  let leads : Option LeadBundle :=
    if options.extract_emails || options.extract_phones || options.extract_names ||
        options.extract_companies || options.extract_social_links then
      some
        { emails := if options.extract_emails then some (extract_emails text html) else none
          phones := if options.extract_phones then some (extract_phones text) else none
          names := if options.extract_names then some (extract_names soup) else none
          companies := if options.extract_companies then some (extract_companies soup text) else none
          social_links := if options.extract_social_links then some (extract_social_links soup url) else none }
    else none
  let site : Option SiteBundle :=
    if options.extract_html || options.extract_css || options.extract_images ||
        options.extract_links then
      some
        { html := if options.extract_html then some html else none
          text := if options.extract_html then some (text.take 10000) else none
          css := if options.extract_css then some (extract_css soup url) else none
          images := if options.extract_images then some (extract_images soup url) else none
          links := if options.extract_links then some (extract_links soup url) else none }
    else none
  let videos : Option (List VideoRef) :=
    if options.extract_youtube || options.extract_vimeo || options.extract_all_videos then
      some (extract_videos options soup html)
    else none
  { url := url, title := titleOf soup url, leads := leads, site := site, videos := videos }

/-! ### Proxy rewriter (lines 587-620)

`soup.head` is the first `head` element of the document in preorder;
when it exists the source inserts `<base href="{url}">` as its first
child (`soup.head.insert(0, base_tag)`); when it does not, the `if`
has no else branch and the tree is re-serialized unchanged. -/

def base_tag (url : Str) : Html := .elem (str "base") [(str "href", url)] []

mutual
/-- Children of the first `head` element in preorder, if any. -/
def firstHeadN : Html → Option (List Html)
  | .textNode _ => none
  | .elem t _ cs => if t == str "head" then some cs else firstHeadL cs

def firstHeadL : List Html → Option (List Html)
  | [] => none
  | c :: cs =>
    match firstHeadN c with
    | some r => some r
    | none => firstHeadL cs
end

mutual
/-- Insert `base_tag url` as the first child of the first `head` element
in preorder; `none` when the tree has no `head`. -/
def insertBaseN (url : Str) : Html → Option Html
  | .textNode _ => none
  | .elem t a cs =>
    if t == str "head" then some (.elem t a (base_tag url :: cs))
    else (insertBaseL url cs).map (fun cs2 => .elem t a cs2)

def insertBaseL (url : Str) : List Html → Option (List Html)
  | [] => none
  | c :: cs =>
    match insertBaseN url c with
    | some c2 => some (c2 :: cs)
    | none => (insertBaseL url cs).map (fun cs2 => c :: cs2)
end

/-- Embeds the HTML branch of `proxy_website`: `if soup.head:` insert,
otherwise leave the document as parsed. -/
def proxy_rewrite (soup : Html) (url : Str) : Html := (insertBaseN url soup).getD soup

/-- Embeds the content-type dispatch of `proxy_website`: only bodies whose
content type contains `text/html` are rewritten. -/
def proxy_content (content_type : Str) (soup : Html) (url : Str) : Html :=
  if isSubstr (str "text/html") content_type then proxy_rewrite soup url else soup

mutual
/-- Whether a tag occurs anywhere in a subtree (serialized output would
contain the corresponding markup). -/
def containsTagN (tag : Str) : Html → Bool
  | .textNode _ => false
  | .elem t _ cs => t == tag || containsTagL tag cs

def containsTagL (tag : Str) : List Html → Bool
  | [] => false
  | c :: cs => containsTagN tag c || containsTagL tag cs
end

/-! ### Session endpoints (lines 446-569)

The MongoDB store is embedded as a list of session documents;
`update_one` with a `session_id` filter updates the first matching
document.  In both session updates the `$inc` always changes a matched
document, so `modified_count == 0` exactly when no document matched the
filter; `updateFirst` returns that flag.  Timestamps are omitted and
generated UUIDs are passed as arguments. -/

structure Page where
  page_id : Str
  url : Str
  title : Option Str := none
deriving DecidableEq, Repr

structure Session where
  session_id : Str
  name : Str
  pages : List Page
  total_pages : Int
  status : Str
deriving DecidableEq, Repr

inductive ApiError where
  | badRequest (msg : Str)
  | notFound (msg : Str)
  | serverError (msg : Str)
deriving DecidableEq, Repr

/-- Embeds `db.sessions.find_one({"session_id": sid})`. -/
def find_one (store : List Session) (sid : Str) : Option Session :=
  store.find? (fun s => s.session_id == sid)

/-- Embeds `db.sessions.update_one({"session_id": sid}, ...)`: apply `f`
to the first matching document, reporting whether one was modified. -/
def updateFirst (store : List Session) (sid : Str) (f : Session → Session) :
    List Session × Bool :=
  match store with
  | [] => ([], false)
  | s :: rest =>
    if s.session_id == sid then (f s :: rest, true)
    else
      let r := updateFirst rest sid f
      (s :: r.1, r.2)

/-- Embeds `POST /api/session/start`; `sid` models the generated uuid4. -/
def start_session (store : List Session) (sid : Str) (name : Option Str) :
    List Session × Str :=
  (store ++ [{ session_id := sid, name := name.getD (str "Session"), pages := [],
               total_pages := 0, status := str "active" }], sid)

/-- Embeds `POST /api/session/scrape`: reject a missing `session_id`
(400), reject an absent session (404), otherwise push the scraped page and
increment `total_pages` in one atomic update.  The nested `scrape_url`
call is external fetching; `pid` models the generated `scrape_id` and the
page payload carries the request url and scraped title.  No session status
is consulted anywhere on this path. -/
def scrape_to_session (store : List Session) (sidOpt : Option Str) (url : Str)
    (pid : Str) (title : Option Str) : List Session × Except ApiError Page :=
  match sidOpt with
  | none => (store, .error (.badRequest (str "session_id is required")))
  | some sid =>
    match find_one store sid with
    | none => (store, .error (.notFound (str "Session not found")))
    | some _ =>
      let page : Page := { page_id := pid, url := url, title := title }
      ((updateFirst store sid (fun s =>
        { s with pages := s.pages ++ [page], total_pages := s.total_pages + 1 })).1,
       .ok page)

/-- Embeds `DELETE /api/session/{sid}/page/{pid}`: one update pulls every
page whose `page_id` matches and decrements `total_pages`; the endpoint
404s exactly when `modified_count == 0`, i.e. when no session matched. -/
def delete_page (store : List Session) (sid pid : Str) :
    List Session × Except ApiError Unit :=
  let r := updateFirst store sid (fun s =>
    { s with pages := s.pages.filter (fun p => !(p.page_id == pid)),
             total_pages := s.total_pages - 1 })
  if r.2 then (r.1, .ok ()) else (r.1, .error (.notFound (str "Page not found")))

/-- Outcome of the webhook POST transport (`httpx` call): an HTTP response
with some status code, or a raised transport exception. -/
inductive PostOutcome where
  | ok (code : Nat)
  | err (msg : Str)
deriving DecidableEq, Repr

structure WebhookResult where
  sent : Bool
  status_code : Option Nat := none
  error : Option Str := none
deriving DecidableEq, Repr

structure CompleteResp where
  success : Bool
  session : Session
  webhook : Option WebhookResult
deriving DecidableEq, Repr

/-- Embeds `POST /api/session/complete`: 404 when absent; set status to
`"completed"`; when a webhook url is present POST the pre-update session
snapshot, reporting the outcome as data.  `post` models the transport.
The source never writes any other status value on this path. -/
def complete_session (store : List Session) (sid : Str) (webhook_url : Option Str)
    (post : Str → PostOutcome) : List Session × Except ApiError CompleteResp :=
  match find_one store sid with
  | none => (store, .error (.notFound (str "Session not found")))
  | some session =>
    let st := (updateFirst store sid (fun s => { s with status := str "completed" })).1
    let webhook : Option WebhookResult := webhook_url.map (fun u =>
      match post u with
      | .ok code => { sent := true, status_code := some code }
      | .err e => { sent := false, error := some e })
    (st, .ok { success := true, session := session, webhook := webhook })

/-- Projection used to state endpoint results (`None` on an HTTP error). -/
def exceptOk : Except ApiError α → Option α
  | .ok a => some a
  | .error _ => none

/-- One session-mutating call, for stating lifecycle properties. -/
inductive SessionOp where
  | scrapePage (sid pid url : Str)
  | removePage (sid pid : Str)
deriving Repr

/-- Apply one endpoint call to the store: a failing call returns the store
the endpoint left behind (unchanged, in every failing case). -/
def applyOp (store : List Session) : SessionOp → List Session
  | .scrapePage sid pid url => (scrape_to_session store (some sid) url pid none).1
  | .removePage sid pid => (delete_page store sid pid).1

def applyOps (store : List Session) (ops : List SessionOp) : List Session :=
  ops.foldl applyOp store

/-- A `removePage` call is clean when the session it targets (if any)
holds exactly one page with the given id; `scrapePage` is always clean. -/
def safeOp (store : List Session) : SessionOp → Bool
  | .scrapePage _ _ _ => true
  | .removePage sid pid =>
    match find_one store sid with
    | none => true
    | some s => s.pages.countP (fun p => p.page_id == pid) == 1

def safeOps (store : List Session) : List SessionOp → Bool
  | [] => true
  | op :: ops => safeOp store op && safeOps (applyOp store op) ops

/-- The documented invariant of a session document. -/
def pagesInv (s : Session) : Prop := s.total_pages = (s.pages.length : Int)

instance (s : Session) : Decidable (pagesInv s) := by unfold pagesInv; infer_instance

/-! ### Concrete fixtures used by counterexamples and witnesses -/

/-- An empty parsed document. -/
def soupNil : Html := .elem (str "[document]") [] []

/-- Store holding one freshly started then completed session `s1`. -/
def c1Store0 : List Session := (start_session [] (str "s1") none).1

def c1Store1 : List Session :=
  (complete_session c1Store0 (str "s1") none (fun _ => .err [])).1

/-- The completed session document held by `c1Store1`. -/
def c1SessionW : Session :=
  { session_id := str "s1", name := str "Session", pages := [], total_pages := 0,
    status := str "completed" }

/-- Store holding one freshly started session `t1` (no pages yet). -/
def c2Store : List Session := (start_session [] (str "t1") none).1

def c2OpsW : List SessionOp :=
  [.scrapePage (str "t1") (str "p1") (str "u"), .removePage (str "t1") (str "p1")]

def sActiveW : Session :=
  { session_id := str "s1", name := str "n", pages := [], total_pages := 0,
    status := str "active" }

def storeActive : List Session := [sActiveW]

/-- A webhook transport that reaches the endpoint (HTTP 200). -/
def c3Post : Str → PostOutcome := fun _ => .ok 200

/-- A webhook transport that raises (connection failure). -/
def c3PostFail : Str → PostOutcome := fun _ => .err (str "connection refused")

def c4Store : List Session :=
  [{ session_id := str "s4", name := str "n4", pages := [], total_pages := 0,
     status := str "active" }]

def c4SessW : Session :=
  { session_id := str "s9", name := str "n9",
    pages := [{ page_id := str "p1", url := str "u" }], total_pages := 1,
    status := str "active" }

def c4StoreW : List Session := [c4SessW]

/-- Options requesting only YouTube extraction. -/
def optsYT : ScrapeOptions :=
  { extract_emails := false, extract_phones := false, extract_names := false,
    extract_companies := false, extract_social_links := false, extract_html := false,
    extract_css := false, extract_images := false, extract_links := false,
    extract_youtube := true, extract_vimeo := false, extract_all_videos := false }

/-- Thirty-one distinct suffix characters for video ids. -/
def alpha31 : Str := str "ABCDEFGHIJKLMNOPQRSTUVWXYZabcde"

/-- An HTML body holding 31 distinct YouTube ids in `youtu.be/` form. -/
def html31 : Str := (alpha31.map (fun c => str "youtu.be/abcdefghij" ++ [c, ' '])).flatten

/-- The 31st id discovered in `html31`. -/
def idDropped : Str := str "abcdefghije"

/-- An HTML body naming one id through two of the three URL forms. -/
def htmlYtW : Str := str "see youtube.com/watch?v=dQw4w9WgXcQ and youtu.be/dQw4w9WgXcQ ok"

/-- Options requesting only email extraction. -/
def optsEmailsOnly : ScrapeOptions :=
  { extract_emails := true, extract_phones := false, extract_names := false,
    extract_companies := false, extract_social_links := false, extract_html := false,
    extract_css := false, extract_images := false, extract_links := false,
    extract_youtube := false, extract_vimeo := false, extract_all_videos := false }

/-- A parsed document with no `head` element. -/
def docNoHead : Html :=
  .elem (str "[document]") [] [.elem (str "p") [] [.textNode (str "hi")]]

/-- A parsed document with an (empty) `head` element. -/
def docWithHead : Html :=
  .elem (str "[document]") []
    [.elem (str "html") [] [.elem (str "head") [] [], .elem (str "body") [] []]]

/-- A parsed document holding a little visible text. -/
def soupTextW : Html := .elem (str "[document]") [] [.textNode (str "hello world")]

/-! ## Theorems -/

/-! ### General list lemmas -/

theorem mem_dedupGo [DecidableEq α] (a : α) :
    ∀ (l seen : List α), a ∈ dedupGo seen l ↔ a ∈ l ∧ a ∉ seen := by
  intro l
  induction l with
  | nil => intro seen; simp [dedupGo]
  | cons b bs ih =>
    intro seen
    by_cases hb : b ∈ seen
    · simp only [dedupGo, if_pos hb]
      rw [ih]
      constructor
      · rintro ⟨h1, h2⟩; exact ⟨List.mem_cons_of_mem _ h1, h2⟩
      · rintro ⟨h1, h2⟩
        rcases List.mem_cons.mp h1 with rfl | h1
        · exact absurd hb h2
        · exact ⟨h1, h2⟩
    · simp only [dedupGo, if_neg hb]
      constructor
      · intro h
        rcases List.mem_cons.mp h with rfl | h
        · exact ⟨List.mem_cons_self _ _, hb⟩
        · obtain ⟨h1, h2⟩ := (ih (b :: seen)).mp h
          exact ⟨List.mem_cons_of_mem _ h1, fun hs => h2 (List.mem_cons_of_mem _ hs)⟩
      · rintro ⟨h1, h2⟩
        rcases List.mem_cons.mp h1 with rfl | h1
        · exact List.mem_cons_self _ _
        · by_cases hab : a = b
          · subst hab; exact List.mem_cons_self _ _
          · refine List.mem_cons_of_mem _ ((ih (b :: seen)).mpr ⟨h1, fun hs => ?_⟩)
            rcases List.mem_cons.mp hs with h | h
            · exact hab h
            · exact h2 h

theorem nodup_dedupGo [DecidableEq α] :
    ∀ (l seen : List α), (dedupGo seen l).Nodup := by
  intro l
  induction l with
  | nil => intro seen; simp [dedupGo]
  | cons b bs ih =>
    intro seen
    by_cases hb : b ∈ seen
    · simpa [dedupGo, if_pos hb] using ih seen
    · simp only [dedupGo, if_neg hb]
      refine List.nodup_cons.mpr ⟨fun hmem => ?_, ?_⟩
      · exact ((mem_dedupGo b bs (b :: seen)).mp hmem).2 (List.mem_cons_self b seen)
      · exact ih (b :: seen)

theorem nodup_dedupFirst [DecidableEq α] (l : List α) : (dedupFirst l).Nodup :=
  nodup_dedupGo l []

theorem mem_dedupFirst [DecidableEq α] (a : α) (l : List α) :
    a ∈ dedupFirst l ↔ a ∈ l := by
  simp [dedupFirst, mem_dedupGo]

theorem filter_of_map (p : α → Bool) (f : β → α) :
    ∀ l : List β, (l.map f).filter p = (l.filter (fun x => p (f x))).map f := by
  intro l
  induction l with
  | nil => rfl
  | cons b bs ih =>
    by_cases hb : p (f b)
    · simp [List.filter_cons, hb, ih]
    · simp [List.filter_cons, hb, ih]

theorem filter_beq_of_nodup [BEq α] [LawfulBEq α] (a : α) :
    ∀ l : List α, l.Nodup → a ∈ l → l.filter (fun x => x == a) = [a] := by
  intro l
  induction l with
  | nil => intro _ h; simp at h
  | cons b bs ih =>
    intro hnd hmem
    rcases List.mem_cons.mp hmem with rfl | hmem
    · have hnotin : a ∉ bs := (List.nodup_cons.mp hnd).1
      have : bs.filter (fun x => x == a) = [] := by
        refine List.filter_eq_nil_iff.mpr (fun x hx => ?_)
        simp only [Bool.not_eq_true, beq_eq_false_iff_ne, ne_eq]
        exact fun h => hnotin (h ▸ hx)
      simp [List.filter_cons, this]
    · have hne : ¬(b == a) = true := by
        simp only [beq_iff_eq]
        rintro rfl
        exact (List.nodup_cons.mp hnd).1 hmem
      simp [List.filter_cons, hne, ih (List.nodup_cons.mp hnd).2 hmem]

theorem filterNot_length_add_countP (p : α → Bool) :
    ∀ l : List α, (l.filter (fun a => !(p a))).length + l.countP p = l.length := by
  intro l
  induction l with
  | nil => rfl
  | cons b bs ih =>
    by_cases hb : p b
    · have h1 : (b :: bs).filter (fun a => !(p a)) = bs.filter (fun a => !(p a)) := by
        simp [List.filter_cons, hb]
      have h2 : (b :: bs).countP p = bs.countP p + 1 := by
        simp [List.countP_cons, hb]
      rw [h1, h2, List.length_cons]
      omega
    · have h1 : (b :: bs).filter (fun a => !(p a)) = b :: bs.filter (fun a => !(p a)) := by
        simp [List.filter_cons, hb]
      have h2 : (b :: bs).countP p = bs.countP p := by
        simp [List.countP_cons, hb]
      rw [h1, h2, List.length_cons, List.length_cons]
      omega

theorem isSome_boolIte (b : Bool) (x : α) :
    (if b then some x else none).isSome = b := by
  cases b <;> rfl

/-! ### Session store lemmas -/

theorem updateFirst_none (store : List Session) (sid : Str) (f : Session → Session)
    (h : find_one store sid = none) : updateFirst store sid f = (store, false) := by
  induction store with
  | nil => rfl
  | cons a rest ih =>
    simp only [find_one, List.find?_cons] at h
    by_cases ha : (a.session_id == sid) = true
    · simp [ha] at h
    · simp only [ha] at h
      simp [updateFirst, ha, ih h]

theorem find_one_updateFirst (store : List Session) (sid : Str) (f : Session → Session)
    (s : Session) (h : find_one store sid = some s)
    (hf : (f s).session_id = s.session_id) :
    (updateFirst store sid f).2 = true ∧
      find_one (updateFirst store sid f).1 sid = some (f s) := by
  induction store with
  | nil => simp [find_one] at h
  | cons a rest ih =>
    by_cases ha : (a.session_id == sid) = true
    · simp only [find_one, List.find?_cons, ha, if_pos] at h
      obtain rfl : a = s := by simpa using h
      have hfa : ((f a).session_id == sid) = true := by
        rw [hf]; exact ha
      simp [updateFirst, ha, find_one, List.find?_cons, hfa]
    · simp only [find_one, List.find?_cons, ha] at h
      have := ih (by simpa [find_one] using h)
      simp only [updateFirst, ha, if_neg]
      refine ⟨this.1, ?_⟩
      simpa [find_one, List.find?_cons, ha] using this.2

theorem mem_updateFirst (store : List Session) (sid : Str) (f : Session → Session)
    (t : Session) (ht : t ∈ (updateFirst store sid f).1) :
    t ∈ store ∨ ∃ s, find_one store sid = some s ∧ t = f s := by
  induction store with
  | nil => simp [updateFirst] at ht
  | cons a rest ih =>
    by_cases ha : (a.session_id == sid) = true
    · simp only [updateFirst, ha, if_pos] at ht
      rcases List.mem_cons.mp ht with rfl | hmem
      · exact Or.inr ⟨a, by simp [find_one, List.find?_cons, ha], rfl⟩
      · exact Or.inl (List.mem_cons_of_mem _ hmem)
    · simp only [updateFirst, ha, if_neg] at ht
      rcases List.mem_cons.mp ht with rfl | hmem
      · exact Or.inl (List.mem_cons_self _ _)
      · rcases ih hmem with h | ⟨s, hs, rfl⟩
        · exact Or.inl (List.mem_cons_of_mem _ h)
        · exact Or.inr ⟨s, by simpa [find_one, List.find?_cons, ha] using hs, rfl⟩

/-! ### C1 -/

/-- C1 counterexample: after `session/start` and `session/complete` on
session `s1` (its stored status is `"completed"`), a `session/scrape`
call on `s1` returns success and appends a page, instead of failing with
InvalidState as the claim states. -/
theorem c1_counterexample :
    (find_one c1Store1 (str "s1")).map Session.status = some (str "completed") ∧
    exceptOk (scrape_to_session c1Store1 (some (str "s1")) (str "http://page") (str "p1")
        none).2 =
      some { page_id := str "p1", url := str "http://page", title := none } ∧
    (find_one (scrape_to_session c1Store1 (some (str "s1")) (str "http://page") (str "p1")
        none).1 (str "s1")).map (fun s => s.pages.length) = some 1 := by
  decide

/-- C1 (amended): `session/scrape` validates only that a `session_id` was
supplied (else 400) and that the session exists (else 404 NotFound); it
consults no session status, so for every session — whatever its status,
`"completed"` included — the call succeeds and appends the page while
incrementing `total_pages`. -/
theorem c1_scrape_checks_only_existence (store : List Session) (url pid : Str)
    (title : Option Str) :
    scrape_to_session store none url pid title =
      (store, .error (.badRequest (str "session_id is required"))) ∧
    ∀ sid : Str,
      (find_one store sid = none →
        scrape_to_session store (some sid) url pid title =
          (store, .error (.notFound (str "Session not found")))) ∧
      (∀ s : Session, find_one store sid = some s →
        (scrape_to_session store (some sid) url pid title).2 =
          .ok { page_id := pid, url := url, title := title } ∧
        find_one (scrape_to_session store (some sid) url pid title).1 sid =
          some { s with
                 pages := s.pages ++ [{ page_id := pid, url := url, title := title }],
                 total_pages := s.total_pages + 1 }) := by
  refine ⟨rfl, fun sid => ⟨fun hnone => ?_, fun s hsome => ?_⟩⟩
  · simp [scrape_to_session, hnone]
  · have h := find_one_updateFirst store sid
      (fun t => { t with
                  pages := t.pages ++ [{ page_id := pid, url := url, title := title }],
                  total_pages := t.total_pages + 1 }) s hsome rfl
    constructor
    · simp [scrape_to_session, hsome]
    · simp only [scrape_to_session, hsome]
      exact h.2

/-- C1 witness: the amended theorem applied to the concrete completed
session stored in `c1Store1`. -/
theorem c1_witness :
    find_one c1Store1 (str "s1") = some c1SessionW ∧
    (scrape_to_session c1Store1 (some (str "s1")) (str "u") (str "p9") none).2 =
      .ok { page_id := str "p9", url := str "u", title := none } :=
  ⟨by decide,
    (((c1_scrape_checks_only_existence c1Store1 (str "u") (str "p9") none).2
      (str "s1")).2 c1SessionW (by decide)).1⟩

/-! ### C2 -/

/-- C2 counterexample: on a freshly started session with no pages, a
`removePage` call with an unknown page id still succeeds (the update
matched the session, so `modified_count` is 1) and leaves
`total_pages = -1` while the page list is empty — the claimed invariant
`total_pages = len(pages) ≥ 0` fails after a sequence of successful
calls. -/
theorem c2_counterexample :
    exceptOk (delete_page c2Store (str "t1") (str "nope")).2 = some () ∧
    (find_one (delete_page c2Store (str "t1") (str "nope")).1 (str "t1")).map
      (fun s => (s.total_pages, s.pages.length)) = some (-1, 0) := by
  decide

/-- Step lemma for C2: one endpoint call preserves the invariant on every
stored session, provided a `removePage` call matches exactly one page of
the session it targets (when that session exists). -/
theorem applyOp_inv (store : List Session) (op : SessionOp)
    (hinv : ∀ s ∈ store, pagesInv s) (hop : safeOp store op = true) :
    ∀ s ∈ applyOp store op, pagesInv s := by
  cases op with
  | scrapePage sid pid url =>
    intro t ht
    simp only [applyOp, scrape_to_session] at ht
    cases hfind : find_one store sid with
    | none => rw [hfind] at ht; exact hinv t ht
    | some s0 =>
      rw [hfind] at ht
      rcases mem_updateFirst _ _ _ _ ht with h | ⟨s, hs, rfl⟩
      · exact hinv t h
      · have hv := hinv s (List.mem_of_find?_eq_some hs)
        simp only [pagesInv] at hv ⊢
        simp only [List.length_append, List.length_cons, List.length_nil]
        omega
  | removePage sid pid =>
    intro t ht
    simp only [applyOp, delete_page] at ht
    have ht2 : t ∈ (updateFirst store sid (fun s =>
        { s with pages := s.pages.filter (fun p => !(p.page_id == pid)),
                 total_pages := s.total_pages - 1 })).1 := by
      rcases hb : (updateFirst store sid (fun s =>
        { s with pages := s.pages.filter (fun p => !(p.page_id == pid)),
                 total_pages := s.total_pages - 1 })).2 with _ | _ <;>
        simpa [hb] using ht
    rcases mem_updateFirst _ _ _ _ ht2 with h | ⟨s, hs, rfl⟩
    · exact hinv t h
    · have hv := hinv s (List.mem_of_find?_eq_some hs)
      have hc : s.pages.countP (fun p => p.page_id == pid) = 1 := by
        have h2 := hop
        simp only [safeOp] at h2
        rw [show find_one store sid = some s from hs] at h2
        simpa using h2
      have hl := filterNot_length_add_countP (fun p => p.page_id == pid) s.pages
      simp only [pagesInv] at hv ⊢
      rw [hc] at hl
      omega

/-- Folding lemma for C2 over a whole call sequence. -/
theorem applyOps_inv :
    ∀ (ops : List SessionOp) (store : List Session),
      (∀ s ∈ store, pagesInv s) → safeOps store ops = true →
      ∀ s ∈ applyOps store ops, pagesInv s := by
  intro ops
  induction ops with
  | nil => intro store hinv _; simpa [applyOps] using hinv
  | cons op ops ih =>
    intro store hinv hsafe
    simp only [safeOps, Bool.and_eq_true] at hsafe
    have he : applyOps store (op :: ops) = applyOps (applyOp store op) ops := by
      simp [applyOps]
    rw [he]
    exact ih (applyOp store op) (applyOp_inv store op hinv hsafe.1) hsafe.2

/-- C2 (amended): starting from any store whose sessions satisfy
`total_pages = len(pages)`, any sequence of `scrape`/`removePage` calls in
which every `removePage` matches exactly one page of an existing session
preserves `total_pages = len(pages)` (hence non-negativity) for every
stored session.  Without that proviso the invariant fails: a successful
`removePage` matching a session but no page still decrements the counter
(see the counterexample). -/
theorem c2_total_pages_matches_length (store : List Session) (ops : List SessionOp)
    (hinv : ∀ s ∈ store, pagesInv s) (hsafe : safeOps store ops = true) :
    ∀ s ∈ applyOps store ops, pagesInv s ∧ 0 ≤ s.total_pages := by
  intro s hs
  have h := applyOps_inv ops store hinv hsafe s hs
  refine ⟨h, ?_⟩
  rw [h]
  exact Int.natCast_nonneg _

/-- C2 witness: the amended theorem applied to a fresh session, one scrape
and one matching removal. -/
theorem c2_witness :
    safeOps c2Store c2OpsW = true ∧
    ∀ s ∈ applyOps c2Store c2OpsW, pagesInv s ∧ 0 ≤ s.total_pages :=
  ⟨by decide, c2_total_pages_matches_length c2Store c2OpsW (by decide) (by decide)⟩

/-! ### C3 -/

/-- C3 counterexample: completing the active session `s1` with a webhook
whose transport succeeds (HTTP 200) leaves the stored status at
`"completed"` — the source never writes `"sent"` — while the response
reports `success: true` and `webhook: {sent: true, status_code: 200}`;
the claim instead states the status advances to `"sent"`. -/
theorem c3_counterexample :
    (exceptOk (complete_session storeActive (str "s1") (some (str "http://hook.example/cb"))
        c3Post).2).map (fun r => (r.success, r.webhook)) =
      some (true, some { sent := true, status_code := some 200 }) ∧
    (find_one (complete_session storeActive (str "s1") (some (str "http://hook.example/cb"))
        c3Post).1 (str "s1")).map Session.status = some (str "completed") ∧
    ¬(str "completed") = (str "sent") := by
  refine ⟨by decide, by decide, by decide⟩

/-- C3 (amended): for every existing session, `session/complete` with a
webhook URL sets the stored status to `"completed"` regardless of the
webhook outcome (the code never writes `"sent"`); the call returns
`success: true` with the pre-update session snapshot, and the webhook
outcome is surfaced as data: `{sent: true, status_code}` on transport
success (any HTTP status), `{sent: false, error}` on transport failure. -/
theorem c3_complete_never_sent (store : List Session) (sid wu : Str)
    (post : Str → PostOutcome) (s : Session) (h : find_one store sid = some s) :
    (find_one (complete_session store sid (some wu) post).1 sid).map Session.status =
      some (str "completed") ∧
    (complete_session store sid (some wu) post).2 =
      .ok { success := true, session := s,
            webhook := some (match post wu with
              | .ok code => { sent := true, status_code := some code }
              | .err e => { sent := false, error := some e }) } := by
  have hupd := find_one_updateFirst store sid
    (fun t => { t with status := str "completed" }) s h rfl
  constructor
  · simp only [complete_session, h]
    rw [hupd.2]
    rfl
  · simp only [complete_session, h]
    rfl

/-- C3 witness: the amended theorem applied to the active session `s1`
with an unreachable webhook endpoint. -/
theorem c3_witness :
    find_one storeActive (str "s1") = some sActiveW ∧
    ((find_one (complete_session storeActive (str "s1") (some (str "http://hook.example/cb"))
        c3PostFail).1 (str "s1")).map Session.status = some (str "completed") ∧
      (complete_session storeActive (str "s1") (some (str "http://hook.example/cb"))
          c3PostFail).2 =
        .ok { success := true, session := sActiveW,
              webhook := some { sent := false, error := some (str "connection refused") } }) :=
  ⟨by decide,
    c3_complete_never_sent storeActive (str "s1") (str "http://hook.example/cb")
      c3PostFail sActiveW (by decide)⟩

/-! ### C4 -/

/-- C4 counterexample: `removePage` on the existing session `s4` with a
page id that matches no page succeeds (it does not fail with NotFound as
the claim states) and still decrements `total_pages`, mutating the
session. -/
theorem c4_counterexample :
    exceptOk (delete_page c4Store (str "s4") (str "ghost")).2 = some () ∧
    (find_one (delete_page c4Store (str "s4") (str "ghost")).1 (str "s4")).map
      (fun s => s.total_pages) = some (-1) := by
  decide

/-- C4 (amended): `removePage` fails with NotFound exactly when the
session itself is absent (that failing call leaves the store unchanged);
whenever the session exists — whether or not any page matches — the call
succeeds, removes every page whose id matches, and decrements
`total_pages` by one. -/
theorem c4_remove_notfound_only_for_missing_session (store : List Session)
    (sid pid : Str) :
    (find_one store sid = none →
      delete_page store sid pid = (store, .error (.notFound (str "Page not found")))) ∧
    (∀ s : Session, find_one store sid = some s →
      (delete_page store sid pid).2 = .ok () ∧
      find_one (delete_page store sid pid).1 sid =
        some { s with pages := s.pages.filter (fun p => !(p.page_id == pid)),
                      total_pages := s.total_pages - 1 }) := by
  constructor
  · intro hnone
    simp [delete_page, updateFirst_none store sid _ hnone]
  · intro s hsome
    have h := find_one_updateFirst store sid
      (fun t => { t with pages := t.pages.filter (fun p => !(p.page_id == pid)),
                         total_pages := t.total_pages - 1 }) s hsome rfl
    simp only [delete_page, h.1]
    exact ⟨rfl, by simpa using h.2⟩

/-- C4 witness: the amended theorem applied to a session holding exactly
the page being removed. -/
theorem c4_witness :
    find_one c4StoreW (str "s9") = some c4SessW ∧
    (delete_page c4StoreW (str "s9") (str "p1")).2 = .ok () ∧
    find_one (delete_page c4StoreW (str "s9") (str "p1")).1 (str "s9") =
      some { c4SessW with pages := [], total_pages := 0 } := by
  have h := (c4_remove_notfound_only_for_missing_session c4StoreW (str "s9") (str "p1")).2
    c4SessW (by decide)
  exact ⟨by decide, h.1, by rw [h.2]; decide⟩

/-! ### C5 -/

/-- C5: for every visible text and raw HTML input, every string returned
by `extract_emails` contains (after lowercasing) none of the six denylist
substrings, the returned list has no duplicates, and it has at most 50
elements. -/
theorem c5_email_filter (text html : Str) :
    (extract_emails text html).length ≤ 50 ∧
    (extract_emails text html).Nodup ∧
    (extract_emails text html).all
      (fun e => !(denylist.any (fun x => isSubstr x (toLowerStr e)))) = true := by
  simp only [extract_emails]
  refine ⟨List.length_take_le _ _, ?_, ?_⟩
  · exact List.Nodup.sublist (List.take_sublist _ _) ((nodup_dedupFirst _).filter _)
  · rw [List.all_eq_true]
    intro e he
    exact (List.mem_filter.mp (List.mem_of_mem_take he)).2

/-- C5 witness: the theorem applied to a concrete input on which the
extractor returns a non-empty list. -/
theorem c5_witness :
    (extract_emails (str "Contact alice@test.com or bob@realcompany.io") (str "")).length
      ≤ 50 ∧
    (extract_emails (str "Contact alice@test.com or bob@realcompany.io") (str "")).Nodup ∧
    (extract_emails (str "Contact alice@test.com or bob@realcompany.io") (str "")).all
      (fun e => !(denylist.any (fun x => isSubstr x (toLowerStr e)))) = true :=
  c5_email_filter (str "Contact alice@test.com or bob@realcompany.io") (str "")

/-! ### C6 -/

theorem some_beq_some [BEq α] (a b : α) : (some a == some b) = (a == b) := rfl

theorem platform_of_mem_directVideos (soup : Html) (v : VideoRef)
    (h : v ∈ directVideos soup) : v.platform = str "Direct" := by
  simp only [directVideos, List.mem_flatMap] at h
  obtain ⟨el, _, hv⟩ := h
  rcases List.mem_append.mp hv with h1 | h2
  · split at h1
    · split at h1
      · simp at h1
      · rw [List.mem_singleton] at h1
        rw [h1]
    · simp at h1
  · obtain ⟨so, _, hso⟩ := List.mem_filterMap.mp h2
    rcases hm : attrOf so (str "src") with _ | src <;> rw [hm] at hso
    · simp at hso
    · rw [Option.some_bind] at hso
      split at hso
      · simp at hso
      · rw [Option.some.injEq] at hso
        rw [← hso]

theorem platform_of_mem_embeddedVideos (soup : Html) (v : VideoRef)
    (h : v ∈ embeddedVideos soup) : v.platform = str "Embedded" := by
  simp only [embeddedVideos, List.mem_filterMap] at h
  obtain ⟨f, _, hf⟩ := h
  split at hf
  · rw [Option.some.injEq] at hf
    rw [← hf]
  · simp at hf

theorem yt_pred_false_of_platform_ne (i : Str) (v : VideoRef)
    (h : ¬v.platform = str "YouTube") :
    (v.platform == str "YouTube" && v.video_id == some i) = false := by
  have : (v.platform == str "YouTube") = false := beq_eq_false_iff_ne.mpr h
  rw [this, Bool.false_and]

set_option maxRecDepth 40000 in
/-- C6 counterexample: `html31` names 31 distinct ids through recognized
URL forms; with only YouTube extraction requested, the final `[:30]` cap
drops the last discovered id, which therefore gets no entry at all — the
claim promises exactly one entry for every id occurring in the input. -/
theorem c6_counterexample :
    idDropped ∈ findallYouTube html31 ∧
    (extract_videos optsYT soupNil html31).filter
      (fun v => v.platform == str "YouTube" && v.video_id == some idDropped) = [] := by
  decide

/-- C6 (amended): whenever YouTube extraction is requested, an 11-character
id discovered through any combination of the three URL forms yields at
most one YouTube entry, and exactly one — with canonical watch and embed
URLs — provided the accumulated video list does not exceed the final cap
of 30 entries. -/
theorem c6_youtube_collapse (options : ScrapeOptions) (soup : Html) (html : Str)
    (i : Str) (hyt : options.extract_youtube = true)
    (hmem : i ∈ findallYouTube html)
    (hlen : (videosNoCap options soup html).length ≤ 30) :
    (extract_videos options soup html).filter
      (fun v => v.platform == str "YouTube" && v.video_id == some i) = [mkYouTube i] := by
  unfold extract_videos
  rw [List.take_of_length_le hlen]
  unfold videosNoCap
  rw [List.filter_append, List.filter_append]
  have hytl : (if options.extract_youtube then
      (dedupFirst (findallYouTube html)).map mkYouTube else []).filter
        (fun v => v.platform == str "YouTube" && v.video_id == some i) = [mkYouTube i] := by
    rw [hyt, if_pos rfl, filter_of_map]
    have hcongr : (dedupFirst (findallYouTube html)).filter
        (fun x => (mkYouTube x).platform == str "YouTube" && (mkYouTube x).video_id == some i) =
        (dedupFirst (findallYouTube html)).filter (fun x => x == i) := by
      refine List.filter_congr (fun x _ => ?_)
      show ((str "YouTube" == str "YouTube") && (some x == some i)) = (x == i)
      rw [beq_self_eq_true, Bool.true_and, some_beq_some]
    rw [hcongr, filter_beq_of_nodup i _ (nodup_dedupFirst _)
      ((mem_dedupFirst i _).mpr hmem)]
    rfl
  have hvim : (if options.extract_vimeo then
      (dedupFirst (findallVimeo1 html)).map mkVimeo ++
      (dedupFirst (findallVimeo2 html)).map mkVimeo else []).filter
        (fun v => v.platform == str "YouTube" && v.video_id == some i) = [] := by
    cases hb : options.extract_vimeo
    · simp
    · rw [if_pos rfl]
      refine List.filter_eq_nil_iff.mpr (fun v hv => ?_)
      have hplat : v.platform = str "Vimeo" := by
        rcases List.mem_append.mp hv with h | h <;>
        · obtain ⟨x, _, rfl⟩ := List.mem_map.mp h
          rfl
      simp [yt_pred_false_of_platform_ne i v (by rw [hplat]; decide)]
  have hgen : (if options.extract_all_videos then
      directVideos soup ++ embeddedVideos soup else []).filter
        (fun v => v.platform == str "YouTube" && v.video_id == some i) = [] := by
    cases hb : options.extract_all_videos
    · simp
    · rw [if_pos rfl]
      refine List.filter_eq_nil_iff.mpr (fun v hv => ?_)
      rcases List.mem_append.mp hv with h | h
      · have := platform_of_mem_directVideos soup v h
        simp [yt_pred_false_of_platform_ne i v (by rw [this]; decide)]
      · have := platform_of_mem_embeddedVideos soup v h
        simp [yt_pred_false_of_platform_ne i v (by rw [this]; decide)]
  rw [hytl, hvim, hgen]
  rfl

/-- C6 witness: one id appearing through two URL forms collapses to the
single canonical entry. -/
theorem c6_witness :
    str "dQw4w9WgXcQ" ∈ findallYouTube htmlYtW ∧
    (extract_videos optsYT soupNil htmlYtW).filter
      (fun v => v.platform == str "YouTube" && v.video_id == some (str "dQw4w9WgXcQ")) =
      [mkYouTube (str "dQw4w9WgXcQ")] :=
  ⟨by decide,
    c6_youtube_collapse optsYT soupNil htmlYtW (str "dQw4w9WgXcQ") rfl
      (by decide) (by decide)⟩

/-! ### C7 -/

/-- C7 counterexample: with only email extraction requested and an input
in which the extractor finds nothing, the `leads` section is still
present, holding `emails = []` — the claim instead states a section is
present only if some requested category found content. -/
theorem c7_counterexample :
    (scrape_url_result (str "http://e.com") optsEmailsOnly [] soupNil).leads =
      some { emails := some [], phones := none, names := none, companies := none,
             social_links := none } := by
  decide

/-- C7 (amended): each top-level optional section of a successful
single-page extraction is present if and only if at least one of its
constituent categories was requested — irrespective of whether any
content was found (an empty-but-requested category yields a present
section holding an empty list).  Absence still means "not requested". -/
theorem c7_sections_present_iff_requested (url : Str) (options : ScrapeOptions)
    (html : Str) (soup : Html) :
    (scrape_url_result url options html soup).leads.isSome =
      (options.extract_emails || options.extract_phones || options.extract_names ||
        options.extract_companies || options.extract_social_links) ∧
    (scrape_url_result url options html soup).site.isSome =
      (options.extract_html || options.extract_css || options.extract_images ||
        options.extract_links) ∧
    (scrape_url_result url options html soup).videos.isSome =
      (options.extract_youtube || options.extract_vimeo || options.extract_all_videos) := by
  refine ⟨?_, ?_, ?_⟩ <;>
  · simp only [scrape_url_result]
    exact isSome_boolIte _ _

/-- C7 witness: the amended theorem applied to a concrete request that
asks only for emails. -/
theorem c7_witness :
    (scrape_url_result (str "u") optsEmailsOnly [] soupNil).leads.isSome =
      (optsEmailsOnly.extract_emails || optsEmailsOnly.extract_phones ||
        optsEmailsOnly.extract_names || optsEmailsOnly.extract_companies ||
        optsEmailsOnly.extract_social_links) ∧
    (scrape_url_result (str "u") optsEmailsOnly [] soupNil).site.isSome =
      (optsEmailsOnly.extract_html || optsEmailsOnly.extract_css ||
        optsEmailsOnly.extract_images || optsEmailsOnly.extract_links) ∧
    (scrape_url_result (str "u") optsEmailsOnly [] soupNil).videos.isSome =
      (optsEmailsOnly.extract_youtube || optsEmailsOnly.extract_vimeo ||
        optsEmailsOnly.extract_all_videos) :=
  c7_sections_present_iff_requested (str "u") optsEmailsOnly [] soupNil

/-! ### C8 -/

/-- C8 counterexample: an HTML document with no `head` element passes
through the proxy rewriter unchanged — no `head` is created and no
`base` tag appears in the output, although the content type is
`text/html`; the claim instead states a base tag is present for every
HTML document. -/
theorem c8_counterexample :
    firstHeadN docNoHead = none ∧
    containsTagN (str "base")
      (proxy_content (str "text/html") docNoHead (str "http://x")) = false :=
  ⟨rfl, rfl⟩

mutual
theorem insertBase_specN (url : Str) :
    ∀ h : Html,
      (firstHeadN h = none → insertBaseN url h = none) ∧
      (∀ cs, firstHeadN h = some cs →
        ∃ h2, insertBaseN url h = some h2 ∧ firstHeadN h2 = some (base_tag url :: cs))
  | .textNode s => by
    constructor
    · intro _; rfl
    · intro cs hcs; simp [firstHeadN] at hcs
  | .elem t a cs => by
    by_cases ht : (t == str "head") = true
    · constructor
      · intro hnone
        simp only [firstHeadN, ht, if_pos] at hnone
        cases hnone
      · intro cs0 hcs0
        simp only [firstHeadN, ht, if_pos, Option.some.injEq] at hcs0
        subst hcs0
        refine ⟨Html.elem t a (base_tag url :: cs), ?_, ?_⟩
        · simp only [insertBaseN, ht, if_pos]
        · simp only [firstHeadN, ht, if_pos]
    · have hl := insertBase_specL url cs
      constructor
      · intro hnone
        simp only [firstHeadN, ht, if_neg] at hnone
        simp only [insertBaseN, ht, if_neg]
        rw [hl.1 hnone]
        rfl
      · intro cs0 hcs0
        simp only [firstHeadN, ht, if_neg] at hcs0
        obtain ⟨l2, h1, h2⟩ := hl.2 cs0 hcs0
        refine ⟨Html.elem t a l2, ?_, ?_⟩
        · simp only [insertBaseN, ht, if_neg, h1]
          rfl
        · simp only [firstHeadN, ht, if_neg]
          exact h2

theorem insertBase_specL (url : Str) :
    ∀ l : List Html,
      (firstHeadL l = none → insertBaseL url l = none) ∧
      (∀ cs, firstHeadL l = some cs →
        ∃ l2, insertBaseL url l = some l2 ∧ firstHeadL l2 = some (base_tag url :: cs))
  | [] => by
    constructor
    · intro _; rfl
    · intro cs h; simp [firstHeadL] at h
  | c :: rest => by
    have hn := insertBase_specN url c
    have hl := insertBase_specL url rest
    rcases hc : firstHeadN c with _ | r
    · have hib : insertBaseN url c = none := hn.1 hc
      constructor
      · intro hnone
        simp only [firstHeadL, hc] at hnone
        simp only [insertBaseL, hib]
        rw [hl.1 hnone]
        rfl
      · intro cs0 hcs0
        simp only [firstHeadL, hc] at hcs0
        obtain ⟨l2, h1, h2⟩ := hl.2 cs0 hcs0
        refine ⟨c :: l2, ?_, ?_⟩
        · simp only [insertBaseL, hib, h1]
          rfl
        · simp only [firstHeadL, hc]
          exact h2
    · obtain ⟨h2v, hib, hfh⟩ := hn.2 r hc
      constructor
      · intro hnone
        simp only [firstHeadL, hc] at hnone
        cases hnone
      · intro cs0 hcs0
        simp only [firstHeadL, hc, Option.some.injEq] at hcs0
        subst hcs0
        refine ⟨h2v :: rest, ?_, ?_⟩
        · simp only [insertBaseL, hib]
        · simp only [firstHeadL, hfh]
end

/-- C8 (amended): for every parsed HTML document, the proxy rewriter
inserts `<base href="{url}">` as the first child of the document's first
`head` element exactly when a `head` exists; a document with no `head`
is left unchanged (no `head` is created and no base tag appears). -/
theorem c8_base_only_when_head_exists (doc : Html) (url : Str) :
    (firstHeadN doc = none → proxy_rewrite doc url = doc) ∧
    (∀ cs, firstHeadN doc = some cs →
      firstHeadN (proxy_rewrite doc url) = some (base_tag url :: cs)) := by
  constructor
  · intro h
    unfold proxy_rewrite
    rw [(insertBase_specN url doc).1 h]
    rfl
  · intro cs h
    obtain ⟨h2, hib, hfh⟩ := (insertBase_specN url doc).2 cs h
    unfold proxy_rewrite
    rw [hib]
    simpa using hfh

/-- C8 witness: the amended theorem applied to a document holding an
empty `head`. -/
theorem c8_witness :
    firstHeadN docWithHead = some [] ∧
    firstHeadN (proxy_rewrite docWithHead (str "http://e.com")) =
      some [base_tag (str "http://e.com")] :=
  ⟨rfl, (c8_base_only_when_head_exists docWithHead (str "http://e.com")).2 [] rfl⟩

/-! ### C9 -/

/-- C9: the whole extraction pipeline is a pure function of the fetched
HTML, its parse tree, the URL and the configuration — two runs on
identical input yield identical `leads`, `site` and `videos` sections
(timestamps are not part of these sections).  The Python `set` iteration
underlying the emails/phones/companies order is fixed for identical input
within a process and is embedded as deterministic first-occurrence
deduplication. -/
theorem c9_extraction_deterministic (url1 url2 : Str) (o1 o2 : ScrapeOptions)
    (html1 html2 : Str) (soup1 soup2 : Html) (hu : url1 = url2) (ho : o1 = o2)
    (hh : html1 = html2) (hs : soup1 = soup2) :
    (scrape_url_result url1 o1 html1 soup1).leads =
      (scrape_url_result url2 o2 html2 soup2).leads ∧
    (scrape_url_result url1 o1 html1 soup1).site =
      (scrape_url_result url2 o2 html2 soup2).site ∧
    (scrape_url_result url1 o1 html1 soup1).videos =
      (scrape_url_result url2 o2 html2 soup2).videos := by
  subst hu ho hh hs
  exact ⟨rfl, rfl, rfl⟩

/-- C9 witness: the theorem applied to a concrete repeated input. -/
theorem c9_witness :
    (scrape_url_result (str "u") ({} : ScrapeOptions) (str "") soupNil).leads =
      (scrape_url_result (str "u") ({} : ScrapeOptions) (str "") soupNil).leads ∧
    (scrape_url_result (str "u") ({} : ScrapeOptions) (str "") soupNil).site =
      (scrape_url_result (str "u") ({} : ScrapeOptions) (str "") soupNil).site ∧
    (scrape_url_result (str "u") ({} : ScrapeOptions) (str "") soupNil).videos =
      (scrape_url_result (str "u") ({} : ScrapeOptions) (str "") soupNil).videos :=
  c9_extraction_deterministic (str "u") (str "u") {} {} (str "") (str "") soupNil soupNil
    rfl rfl rfl rfl

/-! ### C10 -/

/-- C10: whenever HTML capture is requested, the `site` section is present
and its `text` field is exactly the first 10000 characters of the
document's flattened visible text, hence never longer than 10000
characters. -/
theorem c10_site_text_truncated (url : Str) (options : ScrapeOptions) (html : Str)
    (soup : Html) (h : options.extract_html = true) :
    (scrape_url_result url options html soup).site.bind SiteBundle.text =
      some ((docText soup).take 10000) ∧
    ((docText soup).take 10000).length ≤ 10000 := by
  constructor
  · simp [scrape_url_result, h]
  · rw [List.length_take]
    exact Nat.min_le_left _ _

/-- C10 witness: the theorem applied to a concrete document with default
options. -/
theorem c10_witness :
    (scrape_url_result (str "u") ({} : ScrapeOptions) (str "") soupTextW).site.bind
        SiteBundle.text = some ((docText soupTextW).take 10000) ∧
    ((docText soupTextW).take 10000).length ≤ 10000 :=
  c10_site_text_truncated (str "u") {} (str "") soupTextW rfl

end Scraper



